import Mathlib

/-!
Shallow embedding of the Credit Intelligence Platform's scoring core
(`backend/app/services/sentiment_analysis.py`,
`backend/app/services/credit_scoring.py`,
`backend/app/services/data_ingestion.py`) and proofs about it.

Python floats are modelled as exact rationals (`ℚ`); the claims settled
here concern branching, defaulting, ordering and algebraic structure,
none of which depends on rounding.
-/

namespace CreditIntel

/-- A stored news article as consumed by
`SentimentAnalysisService.get_company_sentiment`.  The Mongo query already
filters on `company_ticker` and `published_at >= utcnow - days`, so only the
fields the aggregation loop reads are kept.  `daysOld` stands for
`(datetime.utcnow() - article['published_at']).days`, the whole-day age the
loop recomputes from the stored timestamp. -/
structure Article where
  title : String
  source : String
  daysOld : ℕ
  sentiment_score : ℚ
deriving DecidableEq

/-- `high_credibility` set in `SentimentAnalysisService._get_source_credibility`. -/
def high_credibility : List String :=
  ["reuters", "bloomberg", "wall street journal", "financial times",
   "cnbc", "marketwatch", "yahoo finance", "seeking alpha"]

/-- `medium_credibility` set in `SentimentAnalysisService._get_source_credibility`. -/
def medium_credibility : List String :=
  ["cnn", "bbc", "forbes", "fortune", "business insider",
   "techcrunch", "venturebeat"]

/-- Python `str.lower()`: lower-case each character. -/
def pyLower (s : String) : String :=
  String.mk (s.data.map Char.toLower)

/-- Python `str.strip()`: drop leading and trailing whitespace. -/
def pyStrip (s : String) : String :=
  String.mk (((s.data.dropWhile Char.isWhitespace).reverse.dropWhile
    Char.isWhitespace).reverse)

/-- `SentimentAnalysisService._get_source_credibility`: case-insensitive exact
membership in the two allow-lists; 1.0 / 0.7 / 0.5. -/
def get_source_credibility (source : String) : ℚ :=
  let source_lower := pyLower source
  if source_lower ∈ high_credibility then 1
  else if source_lower ∈ medium_credibility then 7/10
  else 1/2

/-- `recency_weight = max(0.1, 1.0 - (days_old / days))` from the aggregation
loop (Python 3 `/` is true division). -/
def recency_weight (daysOld days : ℕ) : ℚ :=
  max (1/10) (1 - (daysOld : ℚ) / (days : ℚ))

/-- `weight = recency_weight * source_weight` for one article. -/
def article_weight (a : Article) (days : ℕ) : ℚ :=
  recency_weight a.daysOld days * get_source_credibility a.source

/-- The `for article in news_articles` accumulation loop of
`get_company_sentiment`: threads `(total_sentiment, total_weight)`. -/
def sentimentLoop (days : ℕ) : List Article → ℚ × ℚ → ℚ × ℚ
  | [], acc => acc
  | a :: rest, (ts, tw) =>
    let w := article_weight a days
    sentimentLoop days rest (ts + a.sentiment_score * w, tw + w)

/-- `SentimentAnalysisService.get_company_sentiment`, given the list of
articles the Mongo query returned: early `0.0` on an empty list, otherwise
the accumulation loop followed by the `total_weight > 0` guard. -/
def get_company_sentiment (arts : List Article) (days : ℕ) : ℚ :=
  if arts.isEmpty then 0
  else
    let p := sentimentLoop days arts (0, 0)
    if 0 < p.2 then p.1 / p.2 else 0

/-- The surrounding `try/except` of `get_company_sentiment`: any failure of
the news fetch is caught and `0.0` returned. -/
def get_company_sentiment_safe (fetched : Except String (List Article))
    (days : ℕ) : ℚ :=
  match fetched with
  | .error _ => 0
  | .ok arts => get_company_sentiment arts days

/-- `news['title'].lower().strip()`, the normalized key used by
`DataIngestionService._deduplicate_news`. -/
def title_key (t : String) : String := pyStrip (pyLower t)

/-- `DataIngestionService._deduplicate_news`: one pass keeping the first
article for each normalized title key; `seen` is the `seen_titles` set. -/
def deduplicate_news : List Article → List String → List Article
  | [], _ => []
  | n :: rest, seen =>
    if title_key n.title ∈ seen then deduplicate_news rest seen
    else n :: deduplicate_news rest (title_key n.title :: seen)

/-- A numpy scalar as it flows through the feature vector.  `np.log` of a
negative float is `nan` (with a runtime warning), of `0.0` it is `-inf`;
both poison anything downstream, so they are tracked as distinct values. -/
inductive NpVal where
  | val : ℚ → NpVal
  | neginf : NpVal
  | nan : NpVal
deriving DecidableEq

/-- `np.log`.  `logQ` stands for the real natural logarithm restricted to
positive arguments; its numeric values are irrelevant to every property
proved here (only which argument reaches the logarithm matters), so it is
kept as a function parameter. -/
def np_log (logQ : ℚ → ℚ) (x : ℚ) : NpVal :=
  if x < 0 then NpVal.nan
  else if x = 0 then NpVal.neginf
  else NpVal.val (logQ x)

/-- Python `x or default` on a nullable numeric column: `None` and the falsy
float `0.0` both select the default; every other value passes through. -/
def orDefault (x : Option ℚ) (d : ℚ) : ℚ :=
  match x with
  | none => d
  | some v => if v = 0 then d else v

/-- The columns of the `Company` row read by
`CreditScoringService._extract_features_from_company`. -/
structure CompanyRec where
  debt_to_equity : Option ℚ
  current_ratio : Option ℚ
  roe : Option ℚ
  market_cap : Option ℚ
deriving DecidableEq

/-- The columns of the latest `FinancialData` row read by
`CreditScoringService._extract_features_from_financial_data`. -/
structure FinancialRec where
  debt_to_equity_ratio : Option ℚ
  current_ratio : Option ℚ
  roe : Option ℚ
  market_cap : Option ℚ
deriving DecidableEq

/-- `CreditScoringService._extract_features_from_company`:
`[d2e or 0.5, current_ratio or 1.5, roe or 0.15, np.log(market_cap or 1e9)]`. -/
def extract_features_from_company (logQ : ℚ → ℚ) (c : CompanyRec) : List NpVal :=
  [NpVal.val (orDefault c.debt_to_equity (1/2)),
   NpVal.val (orDefault c.current_ratio (3/2)),
   NpVal.val (orDefault c.roe (3/20)),
   np_log logQ (orDefault c.market_cap 1000000000)]

/-- `CreditScoringService._extract_features_from_financial_data`: same
defaults, read from the financial-data row. -/
def extract_features_from_financial_data (logQ : ℚ → ℚ) (f : FinancialRec) :
    List NpVal :=
  [NpVal.val (orDefault f.debt_to_equity_ratio (1/2)),
   NpVal.val (orDefault f.current_ratio (3/2)),
   NpVal.val (orDefault f.roe (3/20)),
   np_log logQ (orDefault f.market_cap 1000000000)]

/-- The loaded model artifact: the pickled bundle `{model, scaler,
feature_names}` plus the SHAP explainer, with the scikit-learn classifier,
the fitted `StandardScaler` and the explainer kept as abstract functions
(they are external library capabilities, not code of this repository). -/
structure ModelData where
  predictProba : List NpVal → List ℚ
  scalerTransform : List NpVal → List NpVal
  shapValues : List NpVal → List ℚ
  feature_names : List String
  version : String

/-- `np.max` of a nonempty array (the empty case never occurs: numpy would
raise). -/
def maxList : List ℚ → ℚ
  | [] => 0
  | [x] => x
  | x :: y :: rest => max x (maxList (y :: rest))

/-- `np.argmax`: index of the first occurrence of the maximum. -/
def argmaxIdx : List ℚ → ℕ
  | [] => 0
  | [_] => 0
  | x :: y :: rest => if maxList (y :: rest) ≤ x then 0 else argmaxIdx (y :: rest) + 1

/-- `model.predict(X)[0]`.  For a fitted `RandomForestClassifier` trained on
labels `0,1,2`, scikit-learn's `predict` is documented as
`classes_.take(np.argmax(predict_proba(X), axis=1))`, i.e. the first index
attaining the maximal probability. -/
def predict (m : ModelData) (x : List NpVal) : ℕ := argmaxIdx (m.predictProba x)

/-- `CreditScoringService._calculate_numeric_score`.  `noise` is the realized
draw of `np.random.normal(0, 5)` (low tier) or `np.random.normal(0, 10)`
(medium/high); a normal draw can take any real value. -/
def calculate_numeric_score (risk_level : ℕ) (noise : ℚ) : ℚ :=
  if risk_level = 0 then 85 + noise
  else if risk_level = 1 then 60 + noise
  else 30 + noise

/-- `CreditScoringService._calculate_confidence`: `float(np.max(probabilities))`. -/
def calculate_confidence (probs : List ℚ) : ℚ := maxList probs

/-- `CreditScoringService._get_risk_level_name`:
`{0: "low", 1: "medium", 2: "high"}.get(risk_level, "medium")`. -/
def get_risk_level_name (risk_level : ℕ) : String :=
  if risk_level = 0 then "low"
  else if risk_level = 1 then "medium"
  else if risk_level = 2 then "high"
  else "medium"

/-- `CreditScoringService._generate_feature_contributions`: the insertion-
ordered dict `{feature_names[i]: shap_values[i]}`, represented as an
association list in feature declaration order.  Faithful whenever
`names.length ≤ shap.length` (otherwise Python raises `IndexError`; the
model artifact guarantees equal lengths). -/
def generate_feature_contributions (names : List String) (shap : List ℚ) :
    List (String × ℚ) :=
  names.zip shap

/-- The comparison realizing Python's
`sorted(items, key=lambda x: abs(x[1]), reverse=True)`: `a` may stay before
`b` exactly when `|b.2| ≤ |a.2|`; on ties both directions hold and a stable
sort keeps input order, exactly as Python's stable sort does. -/
def absDescLe (a b : String × ℚ) : Bool := decide (|b.2| ≤ |a.2|)

/-- `sorted(feature_contributions.items(), key=lambda x: abs(x[1]),
reverse=True)` — a stable sort by descending absolute contribution. -/
def sorted_contributions (contribs : List (String × ℚ)) : List (String × ℚ) :=
  contribs.mergeSort absDescLe

/-- `CreditScoringService._get_key_factors`: names of the top three entries
of the stable descending-by-`|·|` sort. -/
def get_key_factors (contribs : List (String × ℚ)) : List String :=
  ((sorted_contributions contribs).take 3).map Prod.fst

/-- `CreditScoringService._generate_explanation`.  Python indexes
`sorted_contributions[0]`, which would raise on an empty mapping; that case
is unreachable (`feature_names` is never empty) and modelled by the
dictionary-lookup fallback string. -/
def generate_explanation (contribs : List (String × ℚ)) (risk_level : ℕ) :
    String :=
  match (sorted_contributions contribs).head? with
  | none => "Credit risk assessment completed."
  | some top =>
    let n := get_risk_level_name risk_level
    if n = "low" then
      "The company shows a low credit risk profile. The most significant factor is "
        ++ top.1 ++ "."
    else if n = "medium" then
      "The company shows a moderate credit risk profile. The most significant factor is "
        ++ top.1 ++ "."
    else if n = "high" then
      "The company shows a high credit risk profile. The most significant factor is "
        ++ top.1 ++ "."
    else "Credit risk assessment completed."

/-- The dict returned by `CreditScoringService.calculate_score`. -/
structure ScoreResult where
  score : ℚ
  confidence : ℚ
  risk_level : String
  feature_contributions : List (String × ℚ)
  explanation : String
  key_factors : List String
  model_version : String
deriving DecidableEq

/-- The feature vector `calculate_score` assembles: financial features from
the latest `FinancialData` row when present, else from the `Company` row,
with the 7-day weighted sentiment appended. -/
def pipelineFeatures (logQ : ℚ → ℚ) (c : CompanyRec) (fin : Option FinancialRec)
    (arts : List Article) : List NpVal :=
  (match fin with
   | none => extract_features_from_company logQ c
   | some f => extract_features_from_financial_data logQ f) ++
  [NpVal.val (get_company_sentiment arts 7)]

/-- `CreditScoringService.calculate_score` with a loaded model: scale,
predict, map to a score, explain.  `noise` is the realized random draw of
`_calculate_numeric_score`. -/
def calculate_score (m : ModelData) (logQ : ℚ → ℚ) (c : CompanyRec)
    (fin : Option FinancialRec) (arts : List Article) (noise : ℚ) : ScoreResult :=
  let X_scaled := m.scalerTransform (pipelineFeatures logQ c fin arts)
  let risk_probabilities := m.predictProba X_scaled
  let risk_level := predict m X_scaled
  let contribs := generate_feature_contributions m.feature_names (m.shapValues X_scaled)
  { score := calculate_numeric_score risk_level noise
    confidence := calculate_confidence risk_probabilities
    risk_level := get_risk_level_name risk_level
    feature_contributions := contribs
    explanation := generate_explanation contribs risk_level
    key_factors := get_key_factors contribs
    model_version := m.version }

/-- The model-holding state of `CreditScoringService` after `__init__`
(`self.model`, `self.scaler`, `self.feature_names` and the explainer are
set together by one successful load or training). -/
structure ServiceState where
  model : Option ModelData

/-- `CreditScoringService._load_model`: if the pickled artifact exists it is
loaded; otherwise (or if loading raises) `_train_model` runs and its
outcome decides the state — on a training exception the constructor itself
fails, which `load_model` reports as `Except.error`. -/
def load_model (artifact : Option ModelData)
    (trainOutcome : Except String ModelData) : Except String ServiceState :=
  match artifact with
  | some m => Except.ok ⟨some m⟩
  | none =>
    match trainOutcome with
    | Except.ok m => Except.ok ⟨some m⟩
    | Except.error e => Except.error e

/-- `calculate_score` as invoked on the service object: with no model held,
`self.scaler.transform` raises an `AttributeError` on `None`, which the
method re-raises; with a model it returns the assembled result dict. -/
def calculate_score_service (st : ServiceState) (logQ : ℚ → ℚ) (c : CompanyRec)
    (fin : Option FinancialRec) (arts : List Article) (noise : ℚ) :
    Except String ScoreResult :=
  match st.model with
  | none => Except.error "AttributeError: model is None"
  | some m => Except.ok (calculate_score m logQ c fin arts noise)

/-- A concrete stand-in for the model `_train_model` produces from its fixed
synthetic data (seed 42): the exact classifier weights are irrelevant to
every claim, only that a model exists and exposes the contract. -/
def demoModel : ModelData :=
  { predictProba := fun _ => [1, 0, 0]
    scalerTransform := fun x => x
    shapValues := fun _ => [0, 0, 0, 0, 0]
    feature_names := ["debt_to_equity", "current_ratio", "roe",
                      "log_market_cap", "sentiment_score"]
    version := "v1.0.0" }

/-- Collapses the falsy float `0.0` to `None`: the substitution under which
feature extraction cannot distinguish a stored zero from an absent value. -/
def zeroToNone (x : Option ℚ) : Option ℚ :=
  match x with
  | some v => if v = 0 then none else some v
  | none => none

/-! ### Helper lemmas about the sentiment aggregation loop -/

theorem sentimentLoop_eq (days : ℕ) (arts : List Article) (ts tw : ℚ) :
    sentimentLoop days arts (ts, tw) =
      (ts + (arts.map fun a => a.sentiment_score * article_weight a days).sum,
       tw + (arts.map fun a => article_weight a days).sum) := by
  induction arts generalizing ts tw with
  | nil => simp [sentimentLoop]
  | cons a rest ih =>
    simp only [sentimentLoop, List.map_cons, List.sum_cons, ih, Prod.mk.injEq]
    constructor <;> ring

theorem source_credibility_cases (s : String) :
    get_source_credibility s = 1 ∨ get_source_credibility s = 7/10 ∨
      get_source_credibility s = 1/2 := by
  simp only [get_source_credibility]
  split_ifs <;> simp

theorem half_le_source_credibility (s : String) :
    1/2 ≤ get_source_credibility s := by
  rcases source_credibility_cases s with h | h | h <;> rw [h] <;> norm_num

theorem weight_lower (a : Article) (days : ℕ) :
    1/20 ≤ article_weight a days := by
  have h1 : (1/10 : ℚ) ≤ recency_weight a.daysOld days := le_max_left _ _
  have h2 := half_le_source_credibility a.source
  calc (1/20 : ℚ) = (1/10) * (1/2) := by norm_num
    _ ≤ recency_weight a.daysOld days * get_source_credibility a.source :=
        mul_le_mul h1 h2 (by norm_num) (le_trans (by norm_num) h1)

theorem totalWeight_pos (days : ℕ) (arts : List Article) (h : arts ≠ []) :
    0 < (arts.map fun a => article_weight a days).sum := by
  match arts with
  | a :: rest =>
    simp only [List.map_cons, List.sum_cons]
    have h1 : (0:ℚ) < article_weight a days :=
      lt_of_lt_of_le (by norm_num) (weight_lower a days)
    have h2 : (0:ℚ) ≤ (rest.map fun b => article_weight b days).sum := by
      apply List.sum_nonneg
      intro x hx
      obtain ⟨b, -, rfl⟩ := List.mem_map.1 hx
      exact le_trans (by norm_num) (weight_lower b days)
    linarith

theorem loop_snd_pos (days : ℕ) (arts : List Article) (h : arts ≠ []) :
    0 < (sentimentLoop days arts (0, 0)).2 := by
  rw [sentimentLoop_eq]
  simpa using totalWeight_pos days arts h

theorem company_sentiment_div (arts : List Article) (days : ℕ) (h : arts ≠ []) :
    get_company_sentiment arts days =
      (sentimentLoop days arts (0, 0)).1 / (sentimentLoop days arts (0, 0)).2 := by
  have hpos := loop_snd_pos days arts h
  unfold get_company_sentiment
  rw [if_neg (by simpa [List.isEmpty_iff] using h)]
  simp only [hpos, if_true]

/-! ### C1 -/

/-- C1: for every non-empty article list, the aggregate sentiment equals the
weighted average `Σ(weight * sentimentScore) / Σ(weight)` with
`weight = max(0.1, 1 - daysOld/windowDays) * sourceCredibility`, the source
weight being the case-insensitive three-tier lookup. -/
theorem sentiment_weighted_average (arts : List Article) (days : ℕ)
    (hne : arts ≠ []) (_hdays : 0 < days) :
    get_company_sentiment arts days =
      (arts.map fun a =>
        (max (1/10) (1 - (a.daysOld : ℚ) / (days : ℚ)) *
          get_source_credibility a.source) * a.sentiment_score).sum /
      (arts.map fun a =>
        max (1/10) (1 - (a.daysOld : ℚ) / (days : ℚ)) *
          get_source_credibility a.source).sum := by
  rw [company_sentiment_div arts days hne, sentimentLoop_eq]
  simp only [zero_add]
  have hnum : (fun a : Article => a.sentiment_score * article_weight a days) =
      fun a : Article =>
        (max (1/10) (1 - (a.daysOld : ℚ) / (days : ℚ)) *
          get_source_credibility a.source) * a.sentiment_score := by
    funext a
    simp only [article_weight, recency_weight]
    ring
  have hden : (fun a : Article => article_weight a days) =
      fun a : Article =>
        max (1/10) (1 - (a.daysOld : ℚ) / (days : ℚ)) *
          get_source_credibility a.source := by
    funext a
    simp only [article_weight, recency_weight]
  rw [hnum, hden]

/-- Witness for C1 at one concrete article. -/
theorem sentiment_weighted_average_check :
    (([⟨"t", "reuters", 3, 1⟩] : List Article) ≠ []) ∧ (0 : ℕ) < 7 ∧
    get_company_sentiment [⟨"t", "reuters", 3, 1⟩] 7 =
      (([⟨"t", "reuters", 3, 1⟩] : List Article).map fun a =>
        (max (1/10) (1 - (a.daysOld : ℚ) / ((7 : ℕ) : ℚ)) *
          get_source_credibility a.source) * a.sentiment_score).sum /
      (([⟨"t", "reuters", 3, 1⟩] : List Article).map fun a =>
        max (1/10) (1 - (a.daysOld : ℚ) / ((7 : ℕ) : ℚ)) *
          get_source_credibility a.source).sum :=
  ⟨by simp, by norm_num,
   sentiment_weighted_average [⟨"t", "reuters", 3, 1⟩] 7 (by simp) (by norm_num)⟩

/-! ### C10 -/

/-- C10: every article's combined weight is at least `0.05` (recency weight
at least `0.1`, source weight at least `0.5`), so for a non-empty article
list the accumulated total weight is strictly positive and the aggregator
takes the division branch, never the zero-total-weight fallback. -/
theorem weights_bounded_below :
    (∀ (a : Article) (days : ℕ), 1/20 ≤ article_weight a days) ∧
    (∀ (days : ℕ) (arts : List Article), arts ≠ [] →
      0 < (sentimentLoop days arts (0, 0)).2 ∧
      get_company_sentiment arts days =
        (sentimentLoop days arts (0, 0)).1 / (sentimentLoop days arts (0, 0)).2) :=
  ⟨weight_lower, fun days arts h =>
    ⟨loop_snd_pos days arts h, company_sentiment_div arts days h⟩⟩

/-- Witness for C10 at one concrete article. -/
theorem weights_bounded_below_check :
    (1/20 : ℚ) ≤ article_weight ⟨"t", "x", 3, 1⟩ 7 ∧
    (([⟨"t", "x", 3, 1⟩] : List Article) ≠ []) ∧
    0 < (sentimentLoop 7 [⟨"t", "x", 3, 1⟩] (0, 0)).2 :=
  ⟨weights_bounded_below.1 ⟨"t", "x", 3, 1⟩ 7, by simp,
   (weights_bounded_below.2 7 [⟨"t", "x", 3, 1⟩] (by simp)).1⟩

/-! ### C2 -/

/-- C2 counterexample: the aggregation routine performs no deduplication.
With the two title-colliding items of the claim (first item sentiment `1`,
second `0`, same unknown source, same age) the aggregate is `1/2` — the
average of both — and differs from the aggregate of either item alone, so
both items contributed, not exactly one. -/
theorem aggregator_does_not_dedup :
    title_key "Fed raises rates" = title_key "fed raises rates " ∧
    get_company_sentiment
      [⟨"Fed raises rates", "", 0, 1⟩, ⟨"fed raises rates ", "", 0, 0⟩] 7 = 1/2 ∧
    get_company_sentiment [⟨"Fed raises rates", "", 0, 1⟩] 7 = 1 ∧
    get_company_sentiment [⟨"fed raises rates ", "", 0, 0⟩] 7 = 0 := by
  have hw : ∀ (t : String) (q : ℚ), article_weight ⟨t, "", 0, q⟩ 7 = 1/2 := by
    intro t q
    have h1 : pyLower "" ∉ high_credibility := by decide
    have h2 : pyLower "" ∉ medium_credibility := by decide
    have hcred : get_source_credibility "" = 1/2 := by
      simp only [get_source_credibility]
      rw [if_neg h1, if_neg h2]
    simp only [article_weight, recency_weight, hcred]
    norm_num
  refine ⟨by decide, ?_, ?_, ?_⟩ <;>
    rw [company_sentiment_div _ _ (by simp), sentimentLoop_eq] <;>
    simp [hw] <;> norm_num

theorem dedup_nodup_aux (xs : List Article) :
    ∀ seen : List String,
      (((deduplicate_news xs seen).map fun a => title_key a.title).Nodup) ∧
      ∀ k ∈ seen, k ∉ (deduplicate_news xs seen).map fun a => title_key a.title := by
  induction xs with
  | nil => intro seen; simp [deduplicate_news]
  | cons n rest ih =>
    intro seen
    by_cases hmem : title_key n.title ∈ seen
    · simpa [deduplicate_news, hmem] using ih seen
    · have h := ih (title_key n.title :: seen)
      simp only [deduplicate_news, hmem, if_false, List.map_cons, List.nodup_cons]
      refine ⟨⟨h.2 _ (List.mem_cons_self _ _), h.1⟩, ?_⟩
      intro k hk
      simp only [List.mem_cons, not_or]
      exact ⟨fun hkey => hmem (hkey ▸ hk),
             h.2 k (List.mem_cons_of_mem _ hk)⟩

/-- C2 amended: deduplication by normalized title key (lower-cased,
whitespace-trimmed, first-seen kept) is performed by the data-ingestion
service on each fetched batch, not by the sentiment aggregator: the output
of `_deduplicate_news` has pairwise-distinct title keys, and of two
key-colliding items it keeps exactly the first — in particular for the
titles `"Fed raises rates"` and `"fed raises rates "`. -/
theorem dedup_at_ingestion_keeps_first :
    (∀ xs : List Article,
      ((deduplicate_news xs []).map fun a => title_key a.title).Nodup) ∧
    (∀ a b : Article, title_key a.title = title_key b.title →
      deduplicate_news [a, b] [] = [a]) ∧
    title_key "Fed raises rates" = title_key "fed raises rates " := by
  refine ⟨fun xs => (dedup_nodup_aux xs []).1, ?_, by decide⟩
  intro a b h
  simp [deduplicate_news, h]

/-- Witness for C2's amended statement on the claim's concrete titles. -/
theorem dedup_at_ingestion_keeps_first_check :
    title_key (Article.mk "Fed raises rates" "r" 0 0).title =
      title_key (Article.mk "fed raises rates " "r" 0 0).title ∧
    deduplicate_news
      [⟨"Fed raises rates", "r", 0, 0⟩, ⟨"fed raises rates ", "r", 0, 0⟩] [] =
      [⟨"Fed raises rates", "r", 0, 0⟩] :=
  ⟨by decide, dedup_at_ingestion_keeps_first.2.1 _ _ (by decide)⟩

/-! ### C8 -/

/-- C8: with no stored articles, the aggregator returns the neutral score
`0.0` (zero items contribute); a failing news fetch is caught and likewise
yields `0.0`; and the scoring pipeline proceeds normally, appending the
neutral sentiment as the last feature and returning a result, not an
error. -/
theorem empty_or_failed_news_neutral :
    ∀ (days : ℕ) (e : String) (m : ModelData) (logQ : ℚ → ℚ) (c : CompanyRec)
      (fin : Option FinancialRec) (noise : ℚ),
      get_company_sentiment [] days = 0 ∧
      get_company_sentiment_safe (Except.error e) days = 0 ∧
      pipelineFeatures logQ c fin [] =
        (match fin with
         | none => extract_features_from_company logQ c
         | some f => extract_features_from_financial_data logQ f) ++ [NpVal.val 0] ∧
      calculate_score_service ⟨some m⟩ logQ c fin [] noise =
        Except.ok (calculate_score m logQ c fin [] noise) := by
  intro days e m logQ c fin noise
  exact ⟨rfl, rfl, rfl, rfl⟩

/-! ### C9 -/

theorem orDefault_zeroToNone (x : Option ℚ) (d : ℚ) :
    orDefault (zeroToNone x) d = orDefault x d := by
  cases x with
  | none => rfl
  | some v => by_cases h : v = 0 <;> simp [zeroToNone, orDefault, h]

/-- C9: feature extraction cannot distinguish a stored `0.0` from an absent
value — collapsing every zero field to NULL leaves both extractors'
output unchanged, and the all-zero record extracts exactly as the all-NULL
record (every field replaced by its default). -/
theorem zero_indistinguishable_from_missing :
    ∀ (logQ : ℚ → ℚ) (c : CompanyRec) (f : FinancialRec),
      extract_features_from_company logQ c =
        extract_features_from_company logQ
          ⟨zeroToNone c.debt_to_equity, zeroToNone c.current_ratio,
           zeroToNone c.roe, zeroToNone c.market_cap⟩ ∧
      extract_features_from_financial_data logQ f =
        extract_features_from_financial_data logQ
          ⟨zeroToNone f.debt_to_equity_ratio, zeroToNone f.current_ratio,
           zeroToNone f.roe, zeroToNone f.market_cap⟩ ∧
      extract_features_from_company logQ ⟨some 0, some 0, some 0, some 0⟩ =
        extract_features_from_company logQ ⟨none, none, none, none⟩ := by
  intro logQ c f
  refine ⟨?_, ?_, ?_⟩
  · simp only [extract_features_from_company, orDefault_zeroToNone]
  · simp only [extract_features_from_financial_data, orDefault_zeroToNone]
  · simp [extract_features_from_company, orDefault]

/-! ### C7 -/

/-- C7 counterexample: a negative `market_cap` is truthy in Python, so
`market_cap or 1e9` does not replace it and `np.log(-1)` is NaN — the
fourth feature is NaN, not the logarithm of the default `1e9`. -/
theorem negative_market_cap_not_replaced :
    extract_features_from_company (fun x => x) ⟨none, none, none, some (-1)⟩ =
      [NpVal.val (1/2), NpVal.val (3/2), NpVal.val (3/20), NpVal.nan] ∧
    np_log (fun x => x) 1000000000 = NpVal.val 1000000000 ∧
    NpVal.nan ≠ NpVal.val 1000000000 := by
  refine ⟨?_, ?_, by simp⟩
  · norm_num [extract_features_from_company, orDefault, np_log]
  · norm_num [np_log]

/-- C7 amended: with no financial snapshot and NULL company fields, the
defaults `0.5, 1.5, 0.15, 1e9` are substituted and the pipeline returns a
result rather than failing; a `marketCap` of NULL or exactly `0` is
replaced by `1e9` before the logarithm, but a strictly negative value is
passed to `np.log` unchanged and yields NaN. -/
theorem snapshot_defaults_and_zero_replacement :
    ∀ (logQ : ℚ → ℚ) (m : ModelData) (arts : List Article) (noise : ℚ),
      extract_features_from_company logQ ⟨none, none, none, none⟩ =
        [NpVal.val (1/2), NpVal.val (3/2), NpVal.val (3/20),
         np_log logQ 1000000000] ∧
      calculate_score_service ⟨some m⟩ logQ ⟨none, none, none, none⟩
          none arts noise =
        Except.ok (calculate_score m logQ ⟨none, none, none, none⟩
          none arts noise) ∧
      np_log logQ (orDefault (some 0) 1000000000) = np_log logQ 1000000000 ∧
      (∀ q : ℚ, q < 0 → np_log logQ (orDefault (some q) 1000000000) = NpVal.nan) := by
  intro logQ m arts noise
  refine ⟨rfl, rfl, by simp [orDefault], ?_⟩
  intro q hq
  have hq0 : q ≠ 0 := ne_of_lt hq
  simp only [orDefault]
  rw [if_neg hq0]
  simp only [np_log]
  rw [if_pos hq]

/-- Witness for C7's amended statement at `marketCap = -1`. -/
theorem snapshot_defaults_and_zero_replacement_check :
    ((-1 : ℚ) < 0) ∧
    np_log (fun x : ℚ => x) (orDefault (some (-1)) 1000000000) = NpVal.nan :=
  ⟨by norm_num,
   (snapshot_defaults_and_zero_replacement (fun x => x) demoModel [] 0).2.2.2
     (-1) (by norm_num)⟩

/-! ### C4 -/

/-- C4 counterexample: with the model artifact absent and `_train_model`
succeeding on its fixed synthetic data, `_load_model` installs the fallback
model, `calculate_score` returns a result — no error — and the fabricated
score is a concrete number (85 for the low tier with zero jitter). -/
theorem missing_artifact_trains_fallback :
    load_model none (Except.ok demoModel) = Except.ok ⟨some demoModel⟩ ∧
    calculate_score_service ⟨some demoModel⟩ (fun x => x)
        ⟨none, none, none, none⟩ none [] 0 =
      Except.ok (calculate_score demoModel (fun x => x)
        ⟨none, none, none, none⟩ none [] 0) ∧
    (calculate_score demoModel (fun x => x)
        ⟨none, none, none, none⟩ none [] 0).score = 85 := by
  refine ⟨rfl, rfl, ?_⟩
  norm_num [calculate_score, predict, demoModel, argmaxIdx, maxList,
    calculate_numeric_score]

/-- C4 amended: no `ModelUnavailableError` exists in the code.  With the
artifact absent, the service trains a fallback model and `calculate_score`
then returns a fabricated score normally; the call fails only when the
service ended up holding no model at all (both load and training failed),
and then with a generic attribute error on `None`, not a typed
model-unavailable error. -/
theorem fallback_model_scores_normally :
    ∀ (m : ModelData) (logQ : ℚ → ℚ) (c : CompanyRec) (fin : Option FinancialRec)
      (arts : List Article) (noise : ℚ) (e : String),
      load_model none (Except.ok m) = Except.ok ⟨some m⟩ ∧
      load_model none (Except.error e) = Except.error e ∧
      (∀ a : ModelData, load_model (some a) (Except.error e) = Except.ok ⟨some a⟩) ∧
      calculate_score_service ⟨some m⟩ logQ c fin arts noise =
        Except.ok (calculate_score m logQ c fin arts noise) ∧
      calculate_score_service ⟨none⟩ logQ c fin arts noise =
        Except.error "AttributeError: model is None" :=
  fun _ _ _ _ _ _ _ => ⟨rfl, rfl, fun _ => rfl, rfl, rfl⟩

/-! ### C3 -/

/-- C3 counterexample: the per-tier "perturbation" is an unbounded Gaussian
draw (`np.random.normal(0, 5)`), not a ±5 bound — a realized draw of `20`
on the low tier yields the score `105 > 100`, and no clamping exists. -/
theorem score_exceeds_hundred :
    (calculate_score demoModel (fun x => x)
        ⟨none, none, none, none⟩ none [] 20).score = 105 ∧
    ¬ ((calculate_score demoModel (fun x => x)
        ⟨none, none, none, none⟩ none [] 20).score ≤ 100) := by
  have h : (calculate_score demoModel (fun x => x)
      ⟨none, none, none, none⟩ none [] 20).score = 105 := by
    norm_num [calculate_score, predict, demoModel, argmaxIdx, maxList,
      calculate_numeric_score]
  exact ⟨h, by rw [h]; norm_num⟩

theorem le_maxList {l : List ℚ} {a : ℚ} (h : a ∈ l) : a ≤ maxList l := by
  induction l with
  | nil => cases h
  | cons x rest ih =>
    cases rest with
    | nil =>
      rcases List.mem_singleton.1 h with rfl
      exact le_of_eq rfl
    | cons y t =>
      rcases List.mem_cons.1 h with rfl | h2
      · exact le_max_left _ _
      · exact le_trans (ih h2) (le_max_right _ _)

theorem maxList_le {l : List ℚ} {c : ℚ} (hne : l ≠ []) (h : ∀ a ∈ l, a ≤ c) :
    maxList l ≤ c := by
  induction l with
  | nil => simp at hne
  | cons x rest ih =>
    cases rest with
    | nil => exact h x (by simp)
    | cons y t =>
      exact max_le (h x (by simp))
        (ih (by simp) fun a ha => h a (List.mem_cons_of_mem _ ha))

/-- C3 amended: the confidence `max(probabilities)` does lie in `[0,1]` for
a valid probability vector, and the per-tier bases are 85 / 60 / 30; but
the added perturbation is an unbounded Gaussian draw (standard deviation
5 for low, 10 for medium/high — not a ±5/±10 bound), so for every bound
there is a draw pushing the score beyond it and the score is not confined
to `[0,100]`. -/
theorem confidence_bounded_score_jitter_unbounded :
    ∀ probs : List ℚ, probs ≠ [] → (∀ p ∈ probs, 0 ≤ p ∧ p ≤ 1) →
      (0 ≤ calculate_confidence probs ∧ calculate_confidence probs ≤ 1) ∧
      (calculate_numeric_score 0 0 = 85 ∧ calculate_numeric_score 1 0 = 60 ∧
        calculate_numeric_score 2 0 = 30) ∧
      ∀ B : ℚ, ∃ noise : ℚ, B < calculate_numeric_score 0 noise := by
  intro probs hne hpb
  refine ⟨⟨?_, maxList_le hne fun a ha => (hpb a ha).2⟩,
    ⟨by norm_num [calculate_numeric_score],
     by norm_num [calculate_numeric_score],
     by norm_num [calculate_numeric_score]⟩, ?_⟩
  · match probs, hne with
    | x :: t, _ =>
      exact le_trans (hpb x (by simp)).1 (le_maxList (by simp))
  · intro B
    refine ⟨B, ?_⟩
    have h85 : calculate_numeric_score 0 B = 85 + B := by
      norm_num [calculate_numeric_score]
    rw [h85]
    linarith

/-- Witness for C3's amended statement on the probability vector `[1,0,0]`. -/
theorem confidence_bounded_score_jitter_unbounded_check :
    (([1, 0, 0] : List ℚ) ≠ []) ∧
    (∀ p ∈ ([1, 0, 0] : List ℚ), (0:ℚ) ≤ p ∧ p ≤ 1) ∧
    (0 ≤ calculate_confidence [1, 0, 0] ∧ calculate_confidence [1, 0, 0] ≤ 1) :=
  ⟨by simp,
   by
    intro p hp
    simp only [List.mem_cons, List.not_mem_nil, or_false] at hp
    rcases hp with rfl | rfl | rfl <;> norm_num,
   (confidence_bounded_score_jitter_unbounded [1, 0, 0] (by simp)
     (by
       intro p hp
       simp only [List.mem_cons, List.not_mem_nil, or_false] at hp
       rcases hp with rfl | rfl | rfl <;> norm_num)).1⟩

/-! ### C5 -/

theorem argmaxIdx_lt_length (l : List ℚ) (h : l ≠ []) :
    argmaxIdx l < l.length := by
  induction l with
  | nil => simp at h
  | cons x rest ih =>
    cases rest with
    | nil => simp [argmaxIdx]
    | cons y t =>
      by_cases hc : maxList (y :: t) ≤ x
      · simp only [argmaxIdx]
        rw [if_pos hc]
        simp
      · simp only [argmaxIdx]
        rw [if_neg hc]
        have := ih (by simp)
        simp only [List.length_cons] at this ⊢
        omega

theorem get_argmaxIdx (l : List ℚ) (h : l ≠ []) :
    l.get? (argmaxIdx l) = some (maxList l) := by
  induction l with
  | nil => simp at h
  | cons x rest ih =>
    cases rest with
    | nil => simp [argmaxIdx, maxList]
    | cons y t =>
      by_cases hc : maxList (y :: t) ≤ x
      · have hmax : maxList (x :: y :: t) = x := max_eq_left hc
        simp only [argmaxIdx]
        rw [if_pos hc, hmax]
        rfl
      · have hlt : x ≤ maxList (y :: t) := le_of_lt (lt_of_not_le hc)
        have hmax : maxList (x :: y :: t) = maxList (y :: t) := max_eq_right hlt
        simp only [argmaxIdx]
        rw [if_neg hc, hmax]
        simpa using ih (by simp)

/-- C5: the returned result's risk tier is the tier name of the first
argmax index of the classifier's probability vector for that input; that
index is in range and attains the maximal probability (the reported
confidence). -/
theorem tier_equals_argmax :
    ∀ (m : ModelData) (logQ : ℚ → ℚ) (c : CompanyRec) (fin : Option FinancialRec)
      (arts : List Article) (noise : ℚ) (probs : List ℚ),
      probs = m.predictProba (m.scalerTransform (pipelineFeatures logQ c fin arts)) →
      (calculate_score m logQ c fin arts noise).risk_level =
        get_risk_level_name (argmaxIdx probs) ∧
      (probs ≠ [] →
        probs.get? (argmaxIdx probs) = some (calculate_confidence probs) ∧
        argmaxIdx probs < probs.length) := by
  intro m logQ c fin arts noise probs hp
  subst hp
  exact ⟨rfl, fun hne => ⟨get_argmaxIdx _ hne, argmaxIdx_lt_length _ hne⟩⟩

/-- Witness for C5 with a concrete model whose probability vector is
`[1, 0, 0]`. -/
theorem tier_equals_argmax_check :
    (([1, 0, 0] : List ℚ) = demoModel.predictProba (demoModel.scalerTransform
      (pipelineFeatures (fun x => x) ⟨none, none, none, none⟩ none []))) ∧
    (([1, 0, 0] : List ℚ) ≠ []) ∧
    (calculate_score demoModel (fun x => x)
        ⟨none, none, none, none⟩ none [] 0).risk_level =
      get_risk_level_name (argmaxIdx [1, 0, 0]) ∧
    ([1, 0, 0] : List ℚ).get? (argmaxIdx [1, 0, 0]) =
      some (calculate_confidence [1, 0, 0]) :=
  ⟨rfl, by simp,
   (tier_equals_argmax demoModel (fun x => x) ⟨none, none, none, none⟩
     none [] 0 [1, 0, 0] rfl).1,
   ((tier_equals_argmax demoModel (fun x => x) ⟨none, none, none, none⟩
     none [] 0 [1, 0, 0] rfl).2 (by simp)).1⟩

/-! ### C6 -/

theorem absDescLe_trans :
    ∀ a b c : String × ℚ, absDescLe a b → absDescLe b c → absDescLe a c := by
  intro a b c hab hbc
  simp only [absDescLe, decide_eq_true_eq] at *
  exact le_trans hbc hab

theorem absDescLe_total :
    ∀ a b : String × ℚ, absDescLe a b || absDescLe b a := by
  intro a b
  simp only [absDescLe, Bool.or_eq_true, decide_eq_true_eq]
  exact le_total _ _

/-- C6: `key_factors` is the list of names of the first `min(3, n)` entries
of a stable sort of the contribution mapping by descending `|value|`: its
length is `min 3 n`; the sorted list is pairwise descending in absolute
magnitude; and at every magnitude the entries keep their feature
declaration order (the filter of the sorted list at each `|value|` equals
the filter of the input). -/
theorem key_factors_top3_sorted_stable :
    ∀ contribs : List (String × ℚ),
      (get_key_factors contribs).length = min 3 contribs.length ∧
      get_key_factors contribs =
        ((sorted_contributions contribs).take 3).map Prod.fst ∧
      (sorted_contributions contribs).Pairwise (fun a b => |b.2| ≤ |a.2|) ∧
      ∀ v : ℚ,
        (sorted_contributions contribs).filter (fun p => decide (|p.2| = v)) =
          contribs.filter (fun p => decide (|p.2| = v)) := by
  intro contribs
  refine ⟨?_, rfl, ?_, ?_⟩
  · simp [get_key_factors, sorted_contributions]
  · exact (List.sorted_mergeSort absDescLe_trans absDescLe_total contribs).imp
      (fun hab => by simpa [absDescLe, decide_eq_true_eq] using hab)
  · intro v
    have hall : ∀ q ∈ contribs.filter (fun p => decide (|p.2| = v)),
        |q.2| = v := by
      intro q hq
      simpa using List.of_mem_filter hq
    have hpw : (contribs.filter (fun p => decide (|p.2| = v))).Pairwise
        fun a b => absDescLe a b := by
      apply List.pairwise_of_forall_mem_list
      intro a ha b hb
      simp only [absDescLe, hall a ha, hall b hb, decide_eq_true_eq]
      exact le_refl v
    have hstep : List.Sublist (contribs.filter (fun p => decide (|p.2| = v)))
        (sorted_contributions contribs) :=
      List.sublist_mergeSort absDescLe_trans absDescLe_total hpw
        (List.filter_sublist contribs)
    have hsub2 : List.Sublist (contribs.filter (fun p => decide (|p.2| = v)))
        ((sorted_contributions contribs).filter (fun p => decide (|p.2| = v))) := by
      have h1 := hstep.filter (fun p => decide (|p.2| = v))
      rwa [List.filter_eq_self.2 (fun a ha => by
        simpa using hall a ha)] at h1
    have hperm : List.Perm
        ((sorted_contributions contribs).filter (fun p => decide (|p.2| = v)))
        (contribs.filter (fun p => decide (|p.2| = v))) :=
      (List.mergeSort_perm contribs absDescLe).filter _
    exact (hsub2.eq_of_length hperm.length_eq.symm).symm

end CreditIntel
